import Mathlib

/-! Verification of the Lobsang exploratory-data-analysis helpers.

The development shallowly embeds the two core components of the library —
the grouped aggregator (`groupby` in `numpy_helpers.py`, `_groupby` in
`bivariate.py`) and the measurement-level inferrer
(`infer_measurement_level` / `_infer_measurement_by_count` in `levels.py`) —
together with the percentage-label formatter
(`make_percentage_labels` in `chart_helpers.py` / `univariate.py`).

Columns are embedded as Lean lists; numpy arrays of scalars become lists of
a linearly ordered type.  `np.unique` sorts its distinct values ascending
and Python dicts preserve insertion order, so the dict comprehension in
`groupby` produces keys in ascending sorted order.  Boolean-mask indexing
`values[keys == key]` demands the mask length equal the array length, else
numpy raises an `IndexError`; fallible operations are embedded in `Except`.
Exact rational arithmetic stands in for floating point; every concrete
input evaluated below is exactly representable, so the embedding agrees
with the float computation at those points.
-/

namespace Lobsang

/-- Errors surfaced by the embedded numpy/Python primitives. -/
inductive PyError where
  | indexError
  | typeError
deriving DecidableEq

/-- Boolean-mask indexing `arr[mask]` of numpy: keeps the entries of `l` at
positions where `mask` is true.  numpy raises `IndexError` when the mask
length differs from the array length. -/
def boolIndex {V : Type} (mask : List Bool) (l : List V) : Except PyError (List V) :=
  if mask.length = l.length then
    .ok (((mask.zip l).filter (fun p => p.1)).map (fun p => p.2))
  else
    .error .indexError

/-- `np.unique`: the distinct values of a list in ascending sorted order. -/
def npUnique {K : Type} [LinearOrder K] (l : List K) : List K :=
  l.dedup.insertionSort (· ≤ ·)

/-- The sub-collection `values[keys == k]` when lengths match: the values at
exactly the positions whose key equals `k`, in input order. -/
def selectWhere {K V : Type} [LinearOrder K] (keys : List K) (values : List V) (k : K) :
    List V :=
  ((keys.zip values).filter (fun p => decide (p.1 = k))).map (fun p => p.2)

/-- The dict comprehension of `groupby`: iterate the unique keys in order,
aggregating `values[keys == key]` for each; the first numpy failure aborts
the whole comprehension. -/
def aggLoop {K V A : Type} [LinearOrder K] (keys : List K) (values : List V)
    (agg : List V → A) : List K → Except PyError (List A)
  | [] => .ok []
  | k :: ks => do
    let sub ← boolIndex (keys.map (fun x => decide (x = k))) values
    let rest ← aggLoop keys values agg ks
    pure (agg sub :: rest)

/-- `groupby(keys, values, agg)` from `src/lobsang/numpy_helpers.py`:
builds `{key: agg(values[keys == key]) for key in np.unique(keys)}` and
returns the dict's keys and values as two aligned sequences.  The dict
preserves insertion order, i.e. the ascending order of `np.unique`. -/
def groupby {K V A : Type} [LinearOrder K] (keys : List K) (values : List V)
    (agg : List V → A) : Except PyError (List K × List A) :=
  match aggLoop keys values agg (npUnique keys) with
  | .error e => .error e
  | .ok aggs => .ok (npUnique keys, aggs)

/-- `_groupby(keys, values, agg)` from `src/lobsang/bivariate.py`, a private
copy with the same body as `groupby`. -/
def _groupby {K V A : Type} [LinearOrder K] (keys : List K) (values : List V)
    (agg : List V → A) : Except PyError (List K × List A) :=
  match aggLoop keys values agg (npUnique keys) with
  | .error e => .error e
  | .ok aggs => .ok (npUnique keys, aggs)

/-- `np.mean` over the embedded rationals. -/
def npMean (l : List ℚ) : ℚ := l.sum / (l.length : ℚ)

/-- The module-level constant of `src/lobsang/levels.py`. -/
def MEASUREMENT_LEVELS : List String := ["nominal", "interval"]

/-- The truncation step `if use_first: arr = arr[0:use_first]`: Python
truthiness skips the slice both for `None` and for `0`. -/
def npTruncate {α : Type} (arr : List α) (useFirst : Option Nat) : List α :=
  match useFirst with
  | some k => if k ≠ 0 then arr.take k else arr
  | none => arr

/-- Number of distinct values in a column. -/
def distinctCount {α : Type} [DecidableEq α] (arr : List α) : Nat :=
  arr.dedup.length

/-- `_infer_measurement_by_count(arr, threshold, use_first)` from
`src/lobsang/levels.py`: optionally truncate, count unique values, classify
as interval when the count reaches the threshold. -/
def _infer_measurement_by_count {α : Type} [LinearOrder α] (arr : List α)
    (threshold : Nat) (useFirst : Option Nat) : String :=
  let arr := npTruncate arr useFirst
  let uniqueCount := (npUnique arr).length
  if uniqueCount ≥ threshold then "interval" else "nominal"

/-- `infer_measurement_level(arr, method, **kwargs)` from
`src/lobsang/levels.py`: asserts the method is recognized (an
`AssertionError` with message "Invalid inference method" otherwise, embedded
as `.error`), then dispatches; the fall-through branch of the dispatch
returns Python `None`, embedded as `.ok none`. -/
def infer_measurement_level {α : Type} [LinearOrder α] (arr : List α)
    (method : String) (threshold : Nat) (useFirst : Option Nat) :
    Except String (Option String) :=
  if method ∈ ["count_unique"] then
    if method = "count_unique" then
      .ok (some (_infer_measurement_by_count arr threshold useFirst))
    else
      .ok none
  else
    .error "Invalid inference method"

/-- A scalar as received by `make_percentage_labels`: numeric, or not. -/
inductive PyVal where
  | num (q : ℚ)
  | str (s : String)

/-- `np.array(values)` followed by `.sum()`-compatible extraction: a numeric
array needs every element numeric; a string-dtype array cannot be summed. -/
def toNums : List PyVal → Option (List ℚ)
  | [] => some []
  | .num q :: rest => (toNums rest).map (fun l => q :: l)
  | .str _ :: _ => none

/-- Round to the nearest integer, ties to even (the rounding of Python's
fixed-point float formatting; coincides with it on exactly representable
inputs). -/
def rndHalfEven (q : ℚ) : ℤ :=
  let f := ⌊q⌋
  if q - f < 1 / 2 then f
  else if (1 / 2 : ℚ) < q - f then f + 1
  else if f % 2 = 0 then f else f + 1

/-- Left-pad a digit string with zeros to width `w`. -/
def padZeros (s : String) (w : Nat) : String :=
  String.mk (List.replicate (w - s.length) '0') ++ s

/-- Fixed-point rendering of a rational with `d` digits after the point,
as Python's `"{:.df}"` renders an exactly representable float. -/
def fixedFormat (q : ℚ) (d : Nat) : String :=
  let n := (rndHalfEven (|q| * (10 ^ d : ℚ))).toNat
  let ip := n / 10 ^ d
  let fp := n % 10 ^ d
  let core := if d = 0 then toString ip else toString ip ++ "." ++ padZeros (toString fp) d
  if q < 0 then "-" ++ core else core

/-- Python's `"{:.d%}"`: multiply by 100, fixed-point with `d` digits,
percent sign appended. -/
def percentFormat (q : ℚ) (d : Nat) : String :=
  fixedFormat (q * 100) d ++ "%"

/-- `make_percentage_labels(values, decimals)` from
`src/lobsang/chart_helpers.py` (identical private copy in
`src/lobsang/univariate.py`): divide each value by the total and format the
ratios as percentages.  Summing a non-numeric array raises `TypeError`.
The source default for `decimals` is 1. -/
def make_percentage_labels (values : List PyVal) (decimals : Nat) :
    Except PyError (List String) :=
  match toNums values with
  | none => .error .typeError
  | some nums =>
    let total := nums.sum
    .ok (nums.map (fun v => percentFormat (v / total) decimals))


/-! Helper lemmas about the embedding. -/

/-- The sort inside `npUnique` permutes the deduplicated list. -/
theorem npUnique_perm_dedup {K : Type} [LinearOrder K] (l : List K) :
    (npUnique l).Perm l.dedup :=
  List.perm_insertionSort _ _

/-- `np.unique` output is sorted ascending. -/
theorem npUnique_sorted {K : Type} [LinearOrder K] (l : List K) :
    (npUnique l).Sorted (· ≤ ·) :=
  List.sorted_insertionSort _ _

/-- `np.unique` output has no duplicates. -/
theorem npUnique_nodup {K : Type} [LinearOrder K] (l : List K) :
    (npUnique l).Nodup :=
  (npUnique_perm_dedup l).nodup_iff.mpr l.nodup_dedup

/-- `np.unique` output has the same members as its input. -/
theorem mem_npUnique {K : Type} [LinearOrder K] {a : K} {l : List K} :
    a ∈ npUnique l ↔ a ∈ l := by
  rw [(npUnique_perm_dedup l).mem_iff, List.mem_dedup]

/-- The length of `np.unique` output is the distinct-value count. -/
theorem npUnique_length {K : Type} [LinearOrder K] (l : List K) :
    (npUnique l).length = distinctCount l :=
  (npUnique_perm_dedup l).length_eq

/-- `np.unique` output is empty exactly for empty input. -/
theorem npUnique_eq_nil_iff {K : Type} [LinearOrder K] (l : List K) :
    npUnique l = [] ↔ l = [] := by
  constructor
  · intro h
    have hlen := npUnique_length l
    rw [h] at hlen
    exact (List.dedup_eq_nil l).mp (List.length_eq_zero.mp hlen.symm)
  · intro h
    subst h
    rfl

/-- Filtering the zipped mask `keys == k` keeps the values whose key is `k`. -/
theorem mask_filter_eq_selectWhere {K V : Type} [LinearOrder K] (k : K) :
    ∀ (keys : List K) (values : List V),
      (((keys.map (fun x => decide (x = k))).zip values).filter (fun p => p.1)).map
          (fun p => p.2)
        = selectWhere keys values k
  | [], _ => rfl
  | _ :: _, [] => rfl
  | k' :: ks, v :: vs => by
    have ih := mask_filter_eq_selectWhere k ks vs
    by_cases h : k' = k
    · simp [selectWhere, List.filter_cons, h, ih]
    · simp [selectWhere, List.filter_cons, h, ih]

/-- When the lengths agree, boolean-mask indexing by `keys == k` succeeds and
returns `selectWhere keys values k`. -/
theorem boolIndex_eq_selectWhere {K V : Type} [LinearOrder K] (keys : List K)
    (values : List V) (k : K) (h : keys.length = values.length) :
    boolIndex (keys.map (fun x => decide (x = k))) values
      = .ok (selectWhere keys values k) := by
  unfold boolIndex
  rw [if_pos (by simpa using h), mask_filter_eq_selectWhere]

/-- When the lengths agree, the comprehension loop succeeds and aggregates
`selectWhere` at every requested key. -/
theorem aggLoop_ok {K V A : Type} [LinearOrder K] (keys : List K) (values : List V)
    (agg : List V → A) (h : keys.length = values.length) :
    ∀ uq : List K,
      aggLoop keys values agg uq
        = .ok (uq.map (fun k => agg (selectWhere keys values k)))
  | [] => rfl
  | k :: ks => by
    simp only [aggLoop, boolIndex_eq_selectWhere keys values k h,
      aggLoop_ok keys values agg h ks, List.map_cons]
    rfl

/-- When the lengths agree, `groupby` succeeds: the keys are `npUnique keys`
and each aggregate is `agg` of the matching sub-collection. -/
theorem groupby_ok {K V A : Type} [LinearOrder K] (keys : List K) (values : List V)
    (agg : List V → A) (h : keys.length = values.length) :
    groupby keys values agg
      = .ok (npUnique keys,
             (npUnique keys).map (fun k => agg (selectWhere keys values k))) := by
  unfold groupby
  rw [aggLoop_ok keys values agg h]

/-- Whenever `groupby` succeeds, its first component is `npUnique keys`. -/
theorem groupby_ok_fst {K V A : Type} [LinearOrder K] {keys : List K} {values : List V}
    {agg : List V → A} {uks : List K} {aggs : List A}
    (h : groupby keys values agg = .ok (uks, aggs)) : uks = npUnique keys := by
  unfold groupby at h
  cases haggs : aggLoop keys values agg (npUnique keys) with
  | error e => rw [haggs] at h; exact absurd h (by simp)
  | ok l =>
    rw [haggs] at h
    simp only [Except.ok.injEq, Prod.mk.injEq] at h
    exact h.1.symm

/-- With non-empty keys of a length different from the values, the very first
boolean-mask indexing inside `groupby` fails with `IndexError`. -/
theorem groupby_length_mismatch {K V A : Type} [LinearOrder K] (keys : List K)
    (values : List V) (agg : List V → A) (hne : keys ≠ [])
    (hlen : keys.length ≠ values.length) :
    groupby keys values agg = .error .indexError := by
  obtain ⟨k, ks, hk⟩ : ∃ k ks, npUnique keys = k :: ks := by
    cases h : npUnique keys with
    | nil => exact absurd ((npUnique_eq_nil_iff keys).mp h) hne
    | cons k ks => exact ⟨k, ks, rfl⟩
  have hb : boolIndex (keys.map (fun x => decide (x = k))) values
      = .error .indexError := by
    unfold boolIndex
    rw [if_neg (by simpa using hlen)]
  unfold groupby
  rw [hk]
  simp only [aggLoop, hb]
  rfl


/-! Claim theorems. -/

/-- Claim C1, counterexample: with `keys = []` and `values = [1]` the lengths
differ, yet `groupby` raises nothing and returns a (complete, empty) result,
so the claim that every length mismatch raises an error is false on the code. -/
theorem C1_claim_counterexample :
    ([] : List ℕ).length ≠ [(1 : ℕ)].length ∧
      groupby ([] : List ℕ) [(1 : ℕ)] List.sum = .ok ([], []) :=
  ⟨by decide, rfl⟩

/-- Claim C1 (amended): `groupby` performs no explicit length validation.
When `keys` is non-empty and the lengths differ, the first boolean-mask
indexing fails with numpy's `IndexError` (surfaced directly, no partial
result); when `keys` is empty, `groupby` returns two empty sequences
regardless of the length of `values`. -/
theorem C1_groupby_length_mismatch_behavior :
    (∀ (K V A : Type) [LinearOrder K] (keys : List K) (values : List V)
        (agg : List V → A), keys ≠ [] → keys.length ≠ values.length →
        groupby keys values agg = .error .indexError) ∧
    (∀ (K V A : Type) [LinearOrder K] (values : List V) (agg : List V → A),
        groupby ([] : List K) values agg = .ok ([], [])) := by
  constructor
  · intro K V A _ keys values agg hne hlen
    exact groupby_length_mismatch keys values agg hne hlen
  · intro K V A _ values agg
    rfl

/-- Witness for C1's amended theorem at concrete inputs. -/
theorem C1_groupby_length_mismatch_behavior_witness :
    groupby [(1 : ℕ)] ([] : List ℕ) List.sum = .error .indexError ∧
      groupby ([] : List ℕ) [(5 : ℕ)] List.sum = .ok ([], []) :=
  ⟨C1_groupby_length_mismatch_behavior.1 ℕ ℕ ℕ [1] [] List.sum (by decide) (by decide),
   C1_groupby_length_mismatch_behavior.2 ℕ ℕ ℕ [5] List.sum⟩

/-- Claim C2: on equal-length inputs `groupby` succeeds with aligned outputs:
the unique keys have exactly the members of `keys`, carry no duplicates,
both outputs have equal length, and the i-th aggregate is `agg` of the values
at exactly the positions whose key equals the i-th unique key. -/
theorem C2_groupby_functional_spec {K V A : Type} [LinearOrder K] (keys : List K)
    (values : List V) (agg : List V → A) (h : keys.length = values.length) :
    ∃ uks aggs, groupby keys values agg = .ok (uks, aggs) ∧
      uks.toFinset = keys.toFinset ∧
      (∀ a : K, a ∈ uks ↔ a ∈ keys) ∧
      uks.Nodup ∧
      uks.length = aggs.length ∧
      ∀ i, (hu : i < uks.length) → (ha : i < aggs.length) →
        aggs[i] = agg (selectWhere keys values uks[i]) := by
  refine ⟨npUnique keys, _, groupby_ok keys values agg h, ?_, ?_, npUnique_nodup keys,
    by simp, ?_⟩
  · exact Finset.ext fun a => by simp [List.mem_toFinset, mem_npUnique]
  · intro a
    exact mem_npUnique
  · intro i hu ha
    simp [List.getElem_map]

/-- Witness for C2 at concrete inputs. -/
theorem C2_groupby_functional_spec_witness :
    ∃ uks aggs, groupby [2, 1, 2] [10, 20, 30] List.sum = .ok (uks, aggs) ∧
      uks.toFinset = [2, 1, 2].toFinset ∧
      (∀ a : ℕ, a ∈ uks ↔ a ∈ [2, 1, 2]) ∧
      uks.Nodup ∧
      uks.length = aggs.length ∧
      ∀ i, (hu : i < uks.length) → (ha : i < aggs.length) →
        aggs[i] = List.sum (selectWhere [2, 1, 2] [10, 20, 30] uks[i]) :=
  C2_groupby_functional_spec [2, 1, 2] [10, 20, 30] List.sum (by decide)

/-- Claim C3: the `count_unique` strategy classifies as interval exactly when
the distinct-value count of the (possibly truncated) column reaches the
threshold, and as nominal exactly when it is strictly below; the boundary is
inclusive on the interval side. -/
theorem C3_count_unique_threshold {α : Type} [LinearOrder α] (arr : List α)
    (threshold : Nat) (useFirst : Option Nat) (hne : arr ≠ []) :
    (_infer_measurement_by_count arr threshold useFirst = "interval"
        ↔ threshold ≤ distinctCount (npTruncate arr useFirst)) ∧
    (_infer_measurement_by_count arr threshold useFirst = "nominal"
        ↔ distinctCount (npTruncate arr useFirst) < threshold) := by
  simp only [_infer_measurement_by_count]
  rw [npUnique_length]
  split_ifs with h
  · exact ⟨⟨fun _ => h, fun _ => rfl⟩,
      ⟨fun hx => absurd hx (by decide), fun hlt => absurd h (not_le.mpr hlt)⟩⟩
  · exact ⟨⟨fun hx => absurd hx (by decide), fun hle => absurd hle h⟩,
      ⟨fun _ => not_le.mp h, fun _ => rfl⟩⟩

/-- Witness for C3 at a column with exactly `threshold` distinct values,
exercising the inclusive boundary. -/
theorem C3_count_unique_threshold_witness :
    (_infer_measurement_by_count [1, 2, 3] 3 none = "interval"
        ↔ 3 ≤ distinctCount (npTruncate [1, 2, 3] none)) ∧
    (_infer_measurement_by_count [1, 2, 3] 3 none = "nominal"
        ↔ distinctCount (npTruncate [1, 2, 3] none) < 3) :=
  C3_count_unique_threshold [1, 2, 3] 3 none (by decide)

/-- Claim C5: with a positive `use_first = k` the classification depends only
on the first `k` elements, and with `use_first` equal to `None` or to the
falsy `0` the full column is used. -/
theorem C5_use_first_truncation {α : Type} [LinearOrder α] :
    (∀ (a b : List α) (threshold k : Nat), 0 < k → a.take k = b.take k →
        _infer_measurement_by_count a threshold (some k)
          = _infer_measurement_by_count b threshold (some k)) ∧
    (∀ (a : List α) (threshold : Nat),
        npTruncate a none = a ∧ npTruncate a (some 0) = a ∧
        _infer_measurement_by_count a threshold (some 0)
          = _infer_measurement_by_count a threshold none) := by
  constructor
  · intro a b threshold k hk htake
    simp only [_infer_measurement_by_count, npTruncate, ne_eq, hk.ne', not_false_eq_true,
      if_true, reduceIte]
    rw [htake]
  · intro a threshold
    exact ⟨rfl, rfl, rfl⟩

/-- Witness for C5 at concrete inputs: columns agreeing on their first two
elements classify identically under `use_first = 2`. -/
theorem C5_use_first_truncation_witness :
    _infer_measurement_by_count [1, 2, 9] 2 (some 2)
        = _infer_measurement_by_count [1, 2, 7] 2 (some 2) ∧
      (npTruncate [1, 2, 9] none = [1, 2, 9] ∧
        npTruncate [1, 2, 9] (some 0) = [1, 2, 9] ∧
        _infer_measurement_by_count [1, 2, 9] 2 (some 0)
          = _infer_measurement_by_count [1, 2, 9] 2 none) :=
  ⟨(@C5_use_first_truncation ℕ _).1 [1, 2, 9] [1, 2, 7] 2 2 (by decide) (by decide),
   (@C5_use_first_truncation ℕ _).2 [1, 2, 9] 2⟩

/-- Claim C6: `infer_measurement_level` fails (with the assertion message
"Invalid inference method") exactly when the method is not the one recognized
strategy name `count_unique`; with the recognized name it returns one of
`interval` or `nominal` without error. -/
theorem C6_infer_level_method_dispatch {α : Type} [LinearOrder α] (arr : List α)
    (method : String) (threshold : Nat) (useFirst : Option Nat) :
    (method ≠ "count_unique" →
        infer_measurement_level arr method threshold useFirst
          = .error "Invalid inference method") ∧
    (method = "count_unique" →
        ∃ r, infer_measurement_level arr method threshold useFirst = .ok (some r) ∧
          (r = "interval" ∨ r = "nominal")) := by
  constructor
  · intro h
    simp [infer_measurement_level, h]
  · intro h
    subst h
    refine ⟨_infer_measurement_by_count arr threshold useFirst, by simp [infer_measurement_level], ?_⟩
    simp only [_infer_measurement_by_count]
    split_ifs
    · exact Or.inl rfl
    · exact Or.inr rfl

/-- Witness for C6: an unrecognized name fails, the recognized one succeeds. -/
theorem C6_infer_level_method_dispatch_witness :
    infer_measurement_level [1, 2, 3] "bogus" 10 none
        = .error "Invalid inference method" ∧
      ∃ r, infer_measurement_level [1, 2, 3] "count_unique" 10 none = .ok (some r) ∧
        (r = "interval" ∨ r = "nominal") :=
  ⟨(C6_infer_level_method_dispatch [1, 2, 3] "bogus" 10 none).1 (by decide),
   (C6_infer_level_method_dispatch [1, 2, 3] "count_unique" 10 none).2 rfl⟩

/-- Claim C8: on a matching empty pair, `groupby` returns two empty
sequences and raises nothing. -/
theorem C8_groupby_empty {K V A : Type} [LinearOrder K] (agg : List V → A) :
    groupby ([] : List K) ([] : List V) agg = .ok ([], []) := rfl

/-- Claim C9: `groupby` is deterministic — two runs on identical inputs
return identical outputs.  The embedding is a pure function of its
arguments, so the inputs are also left unmodified by construction. -/
theorem C9_groupby_deterministic {K V A : Type} [LinearOrder K]
    (keys1 keys2 : List K) (values1 values2 : List V) (agg : List V → A)
    (hk : keys1 = keys2) (hv : values1 = values2) :
    groupby keys1 values1 agg = groupby keys2 values2 agg := by
  rw [hk, hv]

/-- Witness for C9 at concrete inputs. -/
theorem C9_groupby_deterministic_witness :
    groupby [1, 2] [3, 4] List.sum = groupby [1, 2] [3, 4] List.sum :=
  C9_groupby_deterministic [1, 2] [1, 2] [3, 4] [3, 4] List.sum rfl rfl

/-- Claim C10: the private `_groupby` of the bivariate module and the public
`groupby` of the numpy helpers compute the same function. -/
theorem C10_groupby_copies_agree {K V A : Type} [LinearOrder K] (keys : List K)
    (values : List V) (agg : List V → A) :
    _groupby keys values agg = groupby keys values agg := rfl


/-- Rounding a rational that is exactly a natural number returns it. -/
theorem rndHalfEven_natCast (n : ℕ) : rndHalfEven (n : ℚ) = (n : ℤ) := by
  simp only [rndHalfEven, Int.floor_natCast]
  norm_num

/-- Evaluate `fixedFormat` at a nonnegative rational whose value scaled by
`10 ^ d` is exactly the natural number `n`. -/
theorem fixedFormat_eval (q : ℚ) (n d : ℕ) (h0 : 0 ≤ q)
    (h : q * (10 : ℚ) ^ d = (n : ℚ)) :
    fixedFormat q d =
      (if d = 0 then toString (n / 10 ^ d)
       else toString (n / 10 ^ d) ++ "." ++ padZeros (toString (n % 10 ^ d)) d) := by
  simp only [fixedFormat]
  rw [abs_of_nonneg h0, h, rndHalfEven_natCast, Int.toNat_natCast,
    if_neg (not_lt.mpr h0)]

/-- Evaluate `percentFormat` at a nonnegative rational whose percentage
scaled by `10 ^ d` is exactly the natural number `n`. -/
theorem percentFormat_eval (q : ℚ) (n d : ℕ) (h0 : 0 ≤ q)
    (h : q * 100 * (10 : ℚ) ^ d = (n : ℚ)) :
    percentFormat q d =
      ((if d = 0 then toString (n / 10 ^ d)
        else toString (n / 10 ^ d) ++ "." ++ padZeros (toString (n % 10 ^ d)) d)
        ++ "%") := by
  unfold percentFormat
  rw [fixedFormat_eval (q * 100) n d (mul_nonneg h0 (by norm_num)) h]

/-- Claim C4: the unique keys returned by `groupby` are sorted in the natural
ascending order of the key type, and the spec's example evaluates as stated:
keys `[a,a,b,b,b,c]`, values `[1,3,2,4,6,10]` with the mean aggregate yield
`([a,b,c], [2, 4, 10])`. -/
theorem C4_groupby_sorted_keys {K V A : Type} [LinearOrder K] :
    (∀ (keys : List K) (values : List V) (agg : List V → A) (uks : List K)
        (aggs : List A), groupby keys values agg = .ok (uks, aggs) →
        uks.Sorted (· ≤ ·)) ∧
    groupby ['a', 'a', 'b', 'b', 'b', 'c'] ([1, 3, 2, 4, 6, 10] : List ℚ) npMean
      = .ok (['a', 'b', 'c'], [2, 4, 10]) := by
  constructor
  · intro keys values agg uks aggs h
    rw [groupby_ok_fst h]
    exact npUnique_sorted keys
  · rw [groupby_ok _ _ _ (by decide)]
    have hu : npUnique ['a', 'a', 'b', 'b', 'b', 'c'] = ['a', 'b', 'c'] := rfl
    rw [hu]
    have h1 : selectWhere ['a', 'a', 'b', 'b', 'b', 'c']
        ([1, 3, 2, 4, 6, 10] : List ℚ) 'a' = [1, 3] := rfl
    have h2 : selectWhere ['a', 'a', 'b', 'b', 'b', 'c']
        ([1, 3, 2, 4, 6, 10] : List ℚ) 'b' = [2, 4, 6] := rfl
    have h3 : selectWhere ['a', 'a', 'b', 'b', 'b', 'c']
        ([1, 3, 2, 4, 6, 10] : List ℚ) 'c' = [10] := rfl
    simp only [List.map_cons, List.map_nil, h1, h2, h3]
    have m1 : npMean [1, 3] = 2 := by
      simp [npMean, List.sum_cons, List.sum_nil]
      norm_num
    have m2 : npMean [2, 4, 6] = 4 := by
      simp [npMean, List.sum_cons, List.sum_nil]
      norm_num
    have m3 : npMean [10] = 10 := by
      simp [npMean, List.sum_cons, List.sum_nil]
    rw [m1, m2, m3]

/-- Witness for C4: the sortedness conclusion at the example input, with the
hypothesis discharged by the example conjunct itself. -/
theorem C4_groupby_sorted_keys_witness :
    (['a', 'b', 'c'] : List Char).Sorted (· ≤ ·) :=
  (@C4_groupby_sorted_keys Char ℚ ℚ _).1 ['a', 'a', 'b', 'b', 'b', 'c']
    [1, 3, 2, 4, 6, 10] npMean ['a', 'b', 'c'] [2, 4, 10]
    (@C4_groupby_sorted_keys Char ℚ ℚ _).2

/-- Claim C7: `make_percentage_labels` renders `[2,2,4]` as
`["25.0%","25.0%","50.0%"]` with the default single decimal, as
`["25.00%","25.00%","50.00%"]` with two decimals, and raises `TypeError` on
a list of strings. -/
theorem C7_make_percentage_labels_eval :
    make_percentage_labels [.num 2, .num 2, .num 4] 1
        = .ok ["25.0%", "25.0%", "50.0%"] ∧
      make_percentage_labels [.num 2, .num 2, .num 4] 2
        = .ok ["25.00%", "25.00%", "50.00%"] ∧
      make_percentage_labels [.str "a", .str "b", .str "c"] 1
        = .error .typeError := by
  have hsum : ([(2 : ℚ), 2, 4]).sum = 8 := by
    simp [List.sum_cons, List.sum_nil]
    norm_num
  refine ⟨?_, ?_, rfl⟩
  · show (Except.ok (([(2 : ℚ), 2, 4]).map
        (fun v => percentFormat (v / ([(2 : ℚ), 2, 4]).sum) 1))
        : Except PyError (List String)) = _
    rw [hsum]
    have p1 : percentFormat ((2 : ℚ) / 8) 1 = "25.0%" := by
      rw [percentFormat_eval ((2 : ℚ) / 8) 250 1 (by norm_num) (by norm_num)]
      rfl
    have p2 : percentFormat ((4 : ℚ) / 8) 1 = "50.0%" := by
      rw [percentFormat_eval ((4 : ℚ) / 8) 500 1 (by norm_num) (by norm_num)]
      rfl
    simp only [List.map_cons, List.map_nil, p1, p2]
  · show (Except.ok (([(2 : ℚ), 2, 4]).map
        (fun v => percentFormat (v / ([(2 : ℚ), 2, 4]).sum) 2))
        : Except PyError (List String)) = _
    rw [hsum]
    have p1 : percentFormat ((2 : ℚ) / 8) 2 = "25.00%" := by
      rw [percentFormat_eval ((2 : ℚ) / 8) 2500 2 (by norm_num) (by norm_num)]
      rfl
    have p2 : percentFormat ((4 : ℚ) / 8) 2 = "50.00%" := by
      rw [percentFormat_eval ((4 : ℚ) / 8) 5000 2 (by norm_num) (by norm_num)]
      rfl
    simp only [List.map_cons, List.map_nil, p1, p2]


/-- Witness for C8 at a concrete aggregate. -/
theorem C8_groupby_empty_witness :
    groupby ([] : List ℕ) ([] : List ℕ) List.sum = .ok ([], []) :=
  C8_groupby_empty List.sum

/-- Witness for C10 at concrete inputs. -/
theorem C10_groupby_copies_agree_witness :
    _groupby [1, 2] [3, 4] List.sum = groupby [1, 2] [3, 4] List.sum :=
  C10_groupby_copies_agree [1, 2] [3, 4] List.sum

/-- Witness for C7's claim theorem is not required (no hypotheses); this
corollary still exercises it at its concrete inputs. -/
theorem C7_make_percentage_labels_eval_witness :
    make_percentage_labels [.num 2, .num 2, .num 4] 1
      = .ok ["25.0%", "25.0%", "50.0%"] :=
  C7_make_percentage_labels_eval.1

end Lobsang
